import Mathlib

/-!
# Route-Traffic-History-and-Prediction: verification of the collection core

Shallow embedding of the repository's scheduler/routing core:

* `decodePolyline`, `isLatLng`, `cacheGet`/`cacheSet`, `getRoutes`
  (backend/services/googleMaps.js),
* `runCollectionCycle`, `startJob`, `stopJob`, `pauseJob`, `resumeJob`,
  `getCycleIntervalSeconds` (backend/services/scheduler.js).

JS numbers appearing in 32-bit bitwise positions are modelled as their
unsigned 32-bit representatives (`Nat` below `2 ^ 32`), with explicit
`% 2 ^ 32` wrapping; timestamps are integer epoch seconds; fallible
operations return `Except`/`Option`.
-/

namespace RouteWatch

/-! ## Polyline decoding (`decodePolyline`) -/

/-- JS `b & 0x1f` on an integer `b` (two's-complement low five bits;
for the NaN produced by reading past the end of the string the JS `&`
yields `0`, handled at the call site). -/
def lowFiveBits (b : Int) : Nat := (b.emod 32).toNat

/-- One inner `do … while (b >= 0x20)` loop of `decodePolyline`, reading
character codes: `b = code - 63`, `result |= (b & 0x1f) << shift`,
`shift += 5`.  `result` is the unsigned 32-bit representative of the JS
value; shift counts wrap modulo 32 as JS `<<` does.  Reading past the end
of the string (JS `charCodeAt` returns NaN, so `b & 0x1f` is `0` and
`b >= 0x20` is false) leaves `result` unchanged and exits the loop.
Returns the accumulated `result` and the remaining character codes. -/
def decodeChunk : List Nat → Nat → Nat → Nat × List Nat
  | [], _, result => (result, [])
  | c :: rest, shift, result =>
    let b : Int := (c : Int) - 63
    let result' := result ||| (lowFiveBits b <<< (shift % 32)) % 2 ^ 32
    if 0x20 ≤ b then decodeChunk rest (shift + 5) result' else (result', rest)

/-- The signed 32-bit reading of an unsigned 32-bit representative. -/
def toSigned32 (n : Nat) : Int := if n < 2 ^ 31 then (n : Int) else (n : Int) - 2 ^ 32

/-- `(result & 1) ? ~(result >> 1) : (result >> 1)`: JS `>>` is the
arithmetic (floor) shift of the signed value, and `~x = -x - 1`. -/
def chunkDelta (result : Nat) : Int :=
  let s := toSigned32 result
  if result % 2 = 1 then -(s / 2) - 1 else s / 2

/-- The outer `while (index < encoded.length)` loop of `decodePolyline`:
two chunks per point (latitude delta then longitude delta), cumulative
sums pushed as scaled integer pairs.  The loop variable is the remaining
character-code list; the fuel argument is an upper bound on the number of
iterations (each iteration consumes at least one character, proved in
`decodeChunk_cons_length`/`decodeRowsF_congr` below). -/
def decodeRowsF : Nat → List Nat → Int → Int → List (Int × Int)
  | 0, _, _, _ => []
  | Nat.succ fuel, l, lat, lng =>
    match l with
    | [] => []
    | c :: rest =>
      let p1 := decodeChunk (c :: rest) 0 0
      let p2 := decodeChunk p1.2 0 0
      let lat' := lat + chunkDelta p1.1
      let lng' := lng + chunkDelta p2.1
      (lat', lng') :: decodeRowsF fuel p2.2 lat' lng'

/-- `decodePolyline(encoded)` (googleMaps.js lines 83–106): character
codes, delta decoding, each coordinate divided by 1e5. -/
def decodePolyline (encoded : String) : List (ℚ × ℚ) :=
  (decodeRowsF (encoded.data.map Char.toNat).length (encoded.data.map Char.toNat) 0 0).map
    (fun p => ((p.1 : ℚ) / 100000, (p.2 : ℚ) / 100000))

/-! ## CostCache (`cacheGet` / `cacheSet`) -/

/-- One cache entry, `{ value, at }` in googleMaps.js (`at` is reserved
in Lean, kept as `insertedAt`); timestamps are integer milliseconds. -/
structure CEntry (α : Type) where
  value : α
  insertedAt : Int
deriving Repr, DecidableEq

/-- JS `Map.prototype.get` on the insertion-ordered entry list (the
caches are `Map`s; keys are unique in a `Map`, so the first match is the
only one). -/
def mapFind {κ α : Type} [DecidableEq κ] : List (κ × CEntry α) → κ → Option (CEntry α)
  | [], _ => none
  | (k', e) :: rest, k => if k' = k then some e else mapFind rest k

/-- JS `Map.prototype.set`: replace in place, or append a new entry. -/
def mapSet {κ α : Type} [DecidableEq κ] : List (κ × CEntry α) → κ → CEntry α → List (κ × CEntry α)
  | [], k, e => [(k, e)]
  | (k', e') :: rest, k, e =>
    if k' = k then (k, e) :: rest else (k', e') :: mapSet rest k e

/-- JS `Map.prototype.delete` (keys are unique in a `Map`). -/
def mapDelete {κ α : Type} [DecidableEq κ] : List (κ × CEntry α) → κ → List (κ × CEntry α)
  | [], _ => []
  | (k', e') :: rest, k => if k' = k then rest else (k', e') :: mapDelete rest k

/-- `cacheGet(map, key, ttlMs)` (googleMaps.js lines 17–25): a hit
returns the value; an entry older than the TTL is deleted and reported
as a miss.  Returns the looked-up value and the cache afterwards. -/
def cacheGet {κ α : Type} [DecidableEq κ] (map : List (κ × CEntry α)) (key : κ)
    (ttlMs now : Int) : Option α × List (κ × CEntry α) :=
  match mapFind map key with
  | none => (none, map)
  | some entry =>
    if ttlMs < now - entry.insertedAt then (none, mapDelete map key)
    else (some entry.value, map)

/-- `cacheSet(map, key, value, ttlMs)` (googleMaps.js lines 26–34):
store with the current timestamp; when the entry count exceeds 500,
sweep out exactly the entries strictly older than `now - ttlMs`. -/
def cacheSet {κ α : Type} [DecidableEq κ] (map : List (κ × CEntry α)) (key : κ)
    (value : α) (ttlMs now : Int) : List (κ × CEntry α) :=
  let m1 := mapSet map key ⟨value, now⟩
  if 500 < m1.length then
    m1.filter (fun p => decide (now - ttlMs ≤ p.2.insertedAt))
  else m1

/-! ## RoutingClient (`isLatLng`, `getRoutes`) -/

/-- `String.prototype.trim`: leading and trailing whitespace stripped
(JS `\s` modelled by `Char.isWhitespace`). -/
def trimChars (l : List Char) : List Char :=
  ((l.dropWhile Char.isWhitespace).reverse.dropWhile Char.isWhitespace).reverse

/-- One `-?\d+\.?\d*` number without its optional leading minus:
at least one digit, an optional dot, then any digits; returns the
remaining characters on a match. -/
def numTail (l : List Char) : Option (List Char) :=
  match l.takeWhile Char.isDigit with
  | [] => none
  | _ =>
    match l.dropWhile Char.isDigit with
    | '.' :: r => some (r.dropWhile Char.isDigit)
    | r => some r

/-- One `-?\d+\.?\d*` number of the `isLatLng` regex. -/
def numPart : List Char → Option (List Char)
  | '-' :: r => numTail r
  | l => numTail l

/-- `isLatLng(str)` (googleMaps.js line 36): does the trimmed string
match `^-?\d+\.?\d*,\s*-?\d+\.?\d*$`? -/
def isLatLng (s : String) : Bool :=
  match numPart (trimChars s.data) with
  | some (',' :: r) =>
    match numPart (r.dropWhile Char.isWhitespace) with
    | some [] => true
    | _ => false
  | _ => false

/-- A step of an upstream route leg, flattened to the fields
`getRoutes` reads (`duration`/`distance` are the `.value` members,
`durationText`/`distanceText` the `.text` members). -/
structure ApiStep where
  html_instructions : Option String
  duration : Option Int
  distance : Option Int
  distanceText : Option String
  durationText : Option String
  start_location : Option (ℚ × ℚ)
  end_location : Option (ℚ × ℚ)
  polyline : Option String

/-- An upstream route leg, flattened to the `.value` members that
`getRoutes` reads. -/
structure ApiLeg where
  duration : Option Int
  duration_in_traffic : Option Int
  distance : Option Int
  start_location : Option (ℚ × ℚ)
  end_location : Option (ℚ × ℚ)
  steps : Option (List ApiStep)

/-- An upstream route (`overview_polyline` is its `points` string). -/
structure ApiRoute where
  legs : List ApiLeg
  overview_polyline : Option String
  summary : Option String

/-- A step of the route record returned by `getRoutes`. -/
structure StepOut where
  instruction : Option String
  duration : Option Int
  distance : Option Int
  distanceText : Option String
  durationText : Option String
  startLocation : Option (ℚ × ℚ)
  endLocation : Option (ℚ × ℚ)
  polylinePoints : List (ℚ × ℚ)

/-- The route record returned by `getRoutes` (`end` is reserved in
Lean, kept as `end_`; `routeIndex` is optional because the scheduler
reads it defensively as `route.routeIndex ?? 0`). -/
structure RouteOut where
  routeIndex : Option Nat
  durationSeconds : Option Int
  distanceMeters : Option Int
  points : List (ℚ × ℚ)
  start : Option (ℚ × ℚ)
  end_ : Option (ℚ × ℚ)
  steps : List StepOut
  summary : Option String

/-- Request options after destructuring defaults. -/
structure RouteOptions where
  mode : String
  avoidHighways : Bool
  avoidTolls : Bool

/-- The upstream collaborators of `getRoutes`: `fetchDirections`
(status already checked, yielding `data.routes || []`) and the
CostCache-backed `geocodeAddress` (a `"lat,lng"` string or null). -/
structure RoutingEnv where
  directions : String → String → RouteOptions → List ApiRoute
  geocode : String → Option String

/-- Lines 217–248 of googleMaps.js `getRoutes`: build the returned
route record from the first upstream route. -/
def buildRoute (mode : String) (r : ApiRoute) : RouteOut :=
  let leg := r.legs.head?
  let dit := leg.bind ApiLeg.duration_in_traffic
  let durationSeconds :=
    if mode == "driving" && dit.isSome then dit else leg.bind ApiLeg.duration
  let points := match r.overview_polyline with
    | some enc => decodePolyline enc
    | none => []
  { routeIndex := some 0
    durationSeconds := durationSeconds
    distanceMeters := leg.bind ApiLeg.distance
    points := points
    start := match leg.bind ApiLeg.start_location with
      | some p => some p
      | none => points.head?
    end_ := match leg.bind ApiLeg.end_location with
      | some p => some p
      | none => points.getLast?
    steps := ((leg.bind ApiLeg.steps).getD []).map (fun s =>
      { instruction := s.html_instructions
        duration := s.duration
        distance := s.distance
        distanceText := s.distanceText
        durationText := s.durationText
        startLocation := s.start_location
        endLocation := s.end_location
        polylinePoints := match s.polyline with
          | some p => decodePolyline p
          | none => [] })
    summary := r.summary }

/-- `isLatLng(origin) ? origin : await geocodeAddress(origin)`. -/
def resolveEndpoint (env : RoutingEnv) (s : String) : Option String :=
  if isLatLng s then some s else env.geocode s

/-- `getRoutes(origin, destination, options)` (googleMaps.js lines
196–249), with the recursive zero-result fallback made fuel-indexed:
`none` means the recursion would have gone deeper than the fuel allows
(shown below never to happen from fuel 2 up when the geocoder resolves
to `"lat,lng"` strings). -/
def getRoutesFuel (env : RoutingEnv) :
    Nat → String → String → RouteOptions → Option (List RouteOut)
  | 0, _, _, _ => none
  | Nat.succ fuel, origin, destination, options =>
    match env.directions origin destination options with
    | [] =>
      if !(isLatLng origin) || !(isLatLng destination) then
        match resolveEndpoint env origin, resolveEndpoint env destination with
        | some o, some d => getRoutesFuel env fuel o d options
        | _, _ => some []
      else some []
    | r :: _ => some [buildRoute options.mode r]

/-! ## SchedulerCore / CollectionCycleRunner (scheduler.js) -/

/-- A row of `collection_jobs`, restricted to the columns the scheduler
reads.  `none` in the numeric options models SQL NULL (or a value
`parseInt` cannot parse); timestamps are integer epoch seconds. -/
structure Job where
  id : Nat
  status : String
  start_location : String
  end_location : String
  navigation_type : Option String
  avoid_highways : Bool
  avoid_tolls : Bool
  cycle_seconds : Option Int
  cycle_minutes : Option Int
  duration_days : Option Int
  end_time : Option Int
  created_at : Int
  updated_at : Int
deriving Repr, DecidableEq

/-- A row of `route_snapshots` as inserted by `runCollectionCycle`. -/
structure Snapshot where
  job_id : Nat
  route_index : Nat
  collected_at : Int
  duration_seconds : Option Int
  distance_meters : Option Int
deriving Repr, DecidableEq

/-- Scheduler state: the persisted tables plus the in-memory
`activeIntervals` registry.  `registry` maps job id to timer handle
(`Map` semantics, so at most one entry per id in any reachable state);
`live` holds the handles of armed, uncancelled timers; `nextHandle`
supplies fresh handles. -/
structure SchedState where
  jobs : List Job
  snapshots : List Snapshot
  registry : List (Nat × Nat)
  live : List Nat
  nextHandle : Nat
deriving Repr, DecidableEq

/-- `SELECT * FROM collection_jobs WHERE id = ?` via `queryOne`. -/
def findJob (st : SchedState) (jobId : Nat) : Option Job :=
  st.jobs.find? (fun j => j.id == jobId)

/-- `UPDATE collection_jobs SET … WHERE id = ?`: rewrite the matching
rows. -/
def updateJob (jobId : Nat) (f : Job → Job) (jobs : List Job) : List Job :=
  jobs.map (fun j => if j.id == jobId then f j else j)

/-- `activeIntervals.get(jobId).stop(); activeIntervals.delete(jobId)`
when the registry has the id: the timer handle leaves the live set and
the registry entry is dropped (keys are unique in a JS `Map`, so
dropping every entry with this id is `Map.delete`). -/
def cancelTimer (st : SchedState) (jobId : Nat) : SchedState :=
  match st.registry.find? (fun p => p.1 == jobId) with
  | none => st
  | some p =>
    { st with
      live := st.live.erase p.2
      registry := st.registry.filter (fun q => !(q.1 == jobId)) }

/-- `MIN_CYCLE_SECONDS = Math.max(60, parseInt(process.env.MIN_CYCLE_SECONDS, 10) || 300)`
(scheduler.js line 7); `envMin = none` models an unset or non-numeric
environment variable, and `|| 300` also replaces a parsed 0. -/
def minCycleSeconds (envMin : Option Int) : Int :=
  max 60 (match envMin with
    | some n => if n == 0 then 300 else n
    | none => 300)

/-- `getCycleIntervalSeconds(job)` (scheduler.js lines 9–16). -/
def getCycleIntervalSeconds (envMin : Option Int) (job : Job) : Int :=
  let fromSec := match job.cycle_seconds with
    | some sec => if 0 < sec then some sec else none
    | none => none
  let fromMin := match job.cycle_minutes with
    | some m => if 0 < m then some (m * 60) else none
    | none => none
  let raw := (fromSec.orElse (fun _ => fromMin)).getD 3600
  max (minCycleSeconds envMin) raw

/-- The requested cadence before the floor, as the spec words it:
`cycle_seconds` when positive, else `cycle_minutes * 60` when positive,
else 3600. -/
def requestedIntervalSeconds (job : Job) : Int :=
  match job.cycle_seconds with
  | some sec =>
    if 0 < sec then sec
    else match job.cycle_minutes with
      | some m => if 0 < m then m * 60 else 3600
      | none => 3600
  | none =>
    match job.cycle_minutes with
    | some m => if 0 < m then m * 60 else 3600
    | none => 3600

/-- `addDays` on epoch-second timestamps. -/
def addDays (t days : Int) : Int := t + days * 86400

/-- `job.duration_days || 7` (NULL and 0 both fall back to 7). -/
def durationDaysOf (job : Job) : Int :=
  match job.duration_days with
  | some d => if d == 0 then 7 else d
  | none => 7

/-- `job.end_time ? new Date(job.end_time) : addDays(now, job.duration_days || 7)`
(scheduler.js line 37). -/
def cycleEndTime (now : Int) (job : Job) : Int :=
  match job.end_time with
  | some t => t
  | none => addDays now (durationDaysOf job)

/-- `stopJob(jobId)` (scheduler.js lines 93–101): cancel the timer when
present, persist `status = 'completed'`. -/
def stopJob (jobId : Nat) (st : SchedState) : SchedState :=
  let st1 := cancelTimer st jobId
  { st1 with jobs := updateJob jobId (fun j => { j with status := "completed" }) st1.jobs }

/-- `pauseJob(jobId)` (scheduler.js lines 103–111): cancel the timer
when present, persist `status = 'paused'`. -/
def pauseJob (jobId : Nat) (st : SchedState) : SchedState :=
  let st1 := cancelTimer st jobId
  { st1 with jobs := updateJob jobId (fun j => { j with status := "paused" }) st1.jobs }

/-- The snapshot rows one cycle inserts for the returned routes. -/
def snapshotsFor (jobId : Nat) (now : Int) (routes : List RouteOut) : List Snapshot :=
  routes.map (fun r =>
    { job_id := jobId
      route_index := r.routeIndex.getD 0
      collected_at := now
      duration_seconds := r.durationSeconds
      distance_meters := r.distanceMeters })

/-- `runCollectionCycle(jobId)` (scheduler.js lines 30–71).  `now` is
the cycle timestamp; `fetch` is the outcome of the `getRoutes` call
(`Except.error` = the call threw); `failAt = some k` makes the `k`-th
persistence statement of the try block throw (snapshot inserts in route
order, then the `updated_at` update; larger `k` and `none` mean every
statement succeeds).  Everything thrown inside the try block is caught
and swallowed by the `catch`. -/
def runCollectionCycle (now : Int) (fetch : Except Unit (List RouteOut))
    (failAt : Option Nat) (jobId : Nat) (st : SchedState) : SchedState :=
  match findJob st jobId with
  | none => st
  | some job =>
    if job.status ≠ "running" then st
    else if cycleEndTime now job < now then stopJob jobId st
    else
      match fetch with
      | .error _ => st
      | .ok routes =>
        if routes.isEmpty then st
        else
          match failAt with
          | some k =>
            if k < routes.length then
              { st with snapshots := st.snapshots ++ (snapshotsFor jobId now routes).take k }
            else if k == routes.length then
              { st with snapshots := st.snapshots ++ snapshotsFor jobId now routes }
            else
              { st with snapshots := st.snapshots ++ snapshotsFor jobId now routes
                        jobs := updateJob jobId (fun j => { j with updated_at := now }) st.jobs }
          | none =>
            { st with snapshots := st.snapshots ++ snapshotsFor jobId now routes
                      jobs := updateJob jobId (fun j => { j with updated_at := now }) st.jobs }

/-- Lines 79–89 of `startJob`: cancel any stale timer for the id,
persist `status = 'running'`, arm a fresh recurring timer — the state
just before the immediate cycle runs. -/
def armJob (jobId : Nat) (st : SchedState) : SchedState :=
  let st1 := cancelTimer st jobId
  let st2 := { st1 with
    jobs := updateJob jobId (fun j => { j with status := "running" }) st1.jobs }
  { st2 with
    live := st2.nextHandle :: st2.live
    registry := (jobId, st2.nextHandle) :: st2.registry
    nextHandle := st2.nextHandle + 1 }

/-- `startJob(jobId)` (scheduler.js lines 73–91): throws JobNotFound on
a missing id, no-op when already running; otherwise cancels any stale
timer, persists `status = 'running'`, arms a fresh recurring timer at
the job's effective interval and runs one immediate cycle before
returning.  `envMin`, `now`, `fetch` and `failAt` parameterize the
immediate cycle as in `runCollectionCycle`. -/
def startJob (envMin : Option Int) (now : Int) (fetch : Except Unit (List RouteOut))
    (failAt : Option Nat) (jobId : Nat) (st : SchedState) : Except Unit SchedState :=
  match findJob st jobId with
  | none => .error ()
  | some job =>
    if job.status = "running" then .ok st
    else
      let _intervalSeconds := getCycleIntervalSeconds envMin job
      .ok (runCollectionCycle now fetch failAt jobId (armJob jobId st))

/-- `resumeJob(jobId)` (scheduler.js lines 113–119). -/
def resumeJob (envMin : Option Int) (now : Int) (fetch : Except Unit (List RouteOut))
    (failAt : Option Nat) (jobId : Nat) (st : SchedState) : Except Unit SchedState :=
  match findJob st jobId with
  | none => .error ()
  | some job =>
    if job.status ≠ "paused" then .ok st
    else startJob envMin now fetch failAt jobId st

/-- Timers registered for a job id. -/
def countTimers (st : SchedState) (jobId : Nat) : Nat :=
  st.registry.countP (fun p => p.1 == jobId)

/-! ## Concrete fixtures for witnesses and counterexamples -/

/-- A neutral job row. -/
def baseJob : Job :=
  { id := 0, status := "pending", start_location := "A", end_location := "B",
    navigation_type := none, avoid_highways := false, avoid_tolls := false,
    cycle_seconds := none, cycle_minutes := none, duration_days := some 7,
    end_time := none, created_at := 0, updated_at := 0 }

/-- A running job created at time 0 with the default 7-day lifetime and
no explicit `end_time`. -/
def staleJob : Job := { baseJob with id := 1, status := "running" }

def pausedJob : Job := { baseJob with id := 1, status := "paused", end_time := some 999999 }

def completedJob : Job := { baseJob with id := 2, status := "completed", end_time := some 999999 }

def runningJob : Job := { baseJob with id := 3, status := "running", end_time := some 999999 }

/-- A pending job whose `end_time` has already passed. -/
def expiredPendingJob : Job := { baseJob with id := 4, status := "pending", end_time := some 0 }

def emptySched : SchedState :=
  { jobs := [], snapshots := [], registry := [], live := [], nextHandle := 0 }

def staleState : SchedState := { emptySched with jobs := [staleJob] }

def lifecycleState : SchedState := { emptySched with jobs := [pausedJob, completedJob, runningJob] }

def completedState : SchedState := { emptySched with jobs := [completedJob] }

def expiredState : SchedState := { emptySched with jobs := [expiredPendingJob] }

def runningState : SchedState := { emptySched with jobs := [runningJob] }

def oneRoute : RouteOut :=
  { routeIndex := some 0, durationSeconds := some 600, distanceMeters := some 1000,
    points := [], start := none, end_ := none, steps := [], summary := none }

/-- A job requesting a 30-second cadence, below the default floor. -/
def job30 : Job := { baseJob with id := 5, cycle_seconds := some 30 }

/-- A routing environment whose upstream always reports zero results
and whose geocoder resolves every address to fixed coordinates (the
mocked collaborators of the spec's fallback scenario). -/
def zeroResultEnv : RoutingEnv :=
  { directions := fun _ _ _ => [], geocode := fun _ => some "5,6" }

def drivingOptions : RouteOptions :=
  { mode := "driving", avoidHighways := false, avoidTolls := false }

/-- 501 distinct stale entries, enough to trigger the sweep bound. -/
def bigCache : List (Nat × CEntry Nat) :=
  (List.range 501).map (fun i => (i, ⟨0, -100⟩))

theorem decodeChunk_length_le : ∀ (l : List Nat) (shift result : Nat),
    (decodeChunk l shift result).2.length ≤ l.length := by
  intro l
  induction l with
  | nil => intro shift result; simp [decodeChunk]
  | cons c rest ih =>
    intro shift result
    simp only [decodeChunk]
    split
    · exact le_trans (ih _ _) (Nat.le_succ _)
    · simp

theorem decodeChunk_cons_length (c : Nat) (l : List Nat) (shift result : Nat) :
    (decodeChunk (c :: l) shift result).2.length ≤ l.length := by
  simp only [decodeChunk]
  split
  · exact decodeChunk_length_le _ _ _
  · simp

/-- The outer loop's result does not depend on the fuel once the fuel
bounds the length of the remaining input: the loop really terminates. -/
theorem decodeRowsF_congr : ∀ (fuel fuel' : Nat) (l : List Nat) (lat lng : Int),
    l.length ≤ fuel → l.length ≤ fuel' →
    decodeRowsF fuel l lat lng = decodeRowsF fuel' l lat lng := by
  intro fuel
  induction fuel with
  | zero =>
    intro fuel' l lat lng h _
    have : l = [] := List.eq_nil_of_length_eq_zero (Nat.le_zero.mp h)
    subst this
    cases fuel' <;> simp [decodeRowsF]
  | succ fuel ih =>
    intro fuel' l lat lng h h'
    cases fuel' with
    | zero =>
      have : l = [] := List.eq_nil_of_length_eq_zero (Nat.le_zero.mp h')
      subst this
      simp [decodeRowsF]
    | succ fuel' =>
      cases l with
      | nil => simp [decodeRowsF]
      | cons c rest =>
        simp only [decodeRowsF]
        have hlen : (decodeChunk (decodeChunk (c :: rest) 0 0).2 0 0).2.length ≤ rest.length :=
          le_trans (decodeChunk_length_le _ _ _) (decodeChunk_cons_length _ _ _ _)
        have h1 : (decodeChunk (decodeChunk (c :: rest) 0 0).2 0 0).2.length ≤ fuel :=
          le_trans hlen (Nat.lt_succ_iff.mp (lt_of_lt_of_le (Nat.lt_succ_self _) h))
        have h2 : (decodeChunk (decodeChunk (c :: rest) 0 0).2 0 0).2.length ≤ fuel' :=
          le_trans hlen (Nat.lt_succ_iff.mp (lt_of_lt_of_le (Nat.lt_succ_self _) h'))
        rw [ih fuel' _ _ _ h1 h2]

theorem decodeRowsF_length : ∀ (fuel : Nat) (l : List Nat) (lat lng : Int),
    (decodeRowsF fuel l lat lng).length ≤ l.length := by
  intro fuel
  induction fuel with
  | zero => intro l lat lng; simp [decodeRowsF]
  | succ fuel ih =>
    intro l lat lng
    cases l with
    | nil => simp [decodeRowsF]
    | cons c rest =>
      simp only [decodeRowsF, List.length_cons]
      have hlen : (decodeChunk (decodeChunk (c :: rest) 0 0).2 0 0).2.length ≤ rest.length :=
        le_trans (decodeChunk_length_le _ _ _) (decodeChunk_cons_length _ _ _ _)
      exact Nat.succ_le_succ (le_trans (ih _ _ _) hlen)

/-- C2: `decodePolyline` implements the standard encoded-polyline
algorithm; decoding the reference string yields exactly the documented
point sequence (38.5, -120.2), (40.7, -120.95), (43.252, -126.453). -/
theorem decodePolyline_reference_vector :
    decodePolyline "_p~iF~ps|U_ulLnnqC_mqNvxq`@" =
      [((77 : ℚ) / 2, (-601 : ℚ) / 5),
       ((407 : ℚ) / 10, (-2419 : ℚ) / 20),
       ((10813 : ℚ) / 250, (-126453 : ℚ) / 1000)] := by
  have h : decodeRowsF ("_p~iF~ps|U_ulLnnqC_mqNvxq`@".data.map Char.toNat).length
      ("_p~iF~ps|U_ulLnnqC_mqNvxq`@".data.map Char.toNat) 0 0 =
      [(3850000, -12020000), (4070000, -12095000), (4325200, -12645300)] := by decide
  unfold decodePolyline
  rw [h]
  simp only [List.map]
  norm_num

/-- C10: `decodePolyline` is total — it yields a finite list no longer
than its input for every string, the empty string decodes to the empty
list, and a malformed encoding whose final chunk still has its
continuation bit set (for example `"_"`) still terminates, yielding a
final garbage point. -/
theorem decodePolyline_total :
    decodePolyline "" = []
    ∧ (∀ s : String, (decodePolyline s).length ≤ s.length)
    ∧ decodePolyline "_" = [(0, 0)] := by
  refine ⟨by decide, ?_, ?_⟩
  · intro s
    unfold decodePolyline
    rw [List.length_map]
    have h := decodeRowsF_length (s.data.map Char.toNat).length (s.data.map Char.toNat) 0 0
    have h2 : (s.data.map Char.toNat).length = s.length := by rw [List.length_map]; rfl
    exact le_trans h (le_of_eq h2)
  · have h : decodeRowsF ("_".data.map Char.toNat).length ("_".data.map Char.toNat) 0 0 =
        [(0, 0)] := by decide
    unfold decodePolyline
    rw [h]
    norm_num

/-! ## CostCache theorems (C9) -/

theorem mapFind_mapSet_self {κ α : Type} [DecidableEq κ]
    (m : List (κ × CEntry α)) (k : κ) (e : CEntry α) :
    mapFind (mapSet m k e) k = some e := by
  induction m with
  | nil => simp [mapSet, mapFind]
  | cons p rest ih =>
    obtain ⟨k', e'⟩ := p
    by_cases h : k' = k
    · simp [mapSet, mapFind, h]
    · simp [mapSet, mapFind, h, ih]

theorem mapFind_filter_mapSet {κ α : Type} [DecidableEq κ]
    (m : List (κ × CEntry α)) (k : κ) (e : CEntry α)
    (pred : κ × CEntry α → Bool) (hpred : pred (k, e) = true) :
    mapFind ((mapSet m k e).filter pred) k = some e := by
  induction m with
  | nil => simp [mapSet, List.filter_cons, hpred, mapFind]
  | cons p rest ih =>
    obtain ⟨k', e'⟩ := p
    by_cases h : k' = k
    · subst h
      simp [mapSet, List.filter_cons, hpred, mapFind]
    · simp only [mapSet, if_neg h, List.filter_cons]
      cases hp : pred (k', e') with
      | true => simp [mapFind, h, ih]
      | false => simpa using ih

/-- C9: cost-cache TTL behaviour.  A `set` immediately followed (within
the TTL) by a `get` of the same key hits; a `get` of an entry strictly
older than the TTL misses and deletes the entry; `set` stores with the
current timestamp and sweeps only when the entry count exceeds 500, the
sweep removing exactly the entries strictly older than `now - ttl` and
keeping every other entry in place. -/
theorem cache_ttl_behaviour {κ α : Type} [DecidableEq κ]
    (map : List (κ × CEntry α)) (key : κ) (value : α) (ttlMs now now' : Int) :
    (0 ≤ ttlMs → now' - now ≤ ttlMs →
      (cacheGet (cacheSet map key value ttlMs now) key ttlMs now').1 = some value)
    ∧ (∀ e, mapFind map key = some e → ttlMs < now - e.insertedAt →
        cacheGet map key ttlMs now = (none, mapDelete map key))
    ∧ ((mapSet map key ⟨value, now⟩).length ≤ 500 →
        cacheSet map key value ttlMs now = mapSet map key ⟨value, now⟩)
    ∧ (500 < (mapSet map key ⟨value, now⟩).length →
        cacheSet map key value ttlMs now =
          (mapSet map key ⟨value, now⟩).filter
            (fun p => decide (now - ttlMs ≤ p.2.insertedAt))) := by
  refine ⟨?_, ?_, ?_, ?_⟩
  · intro h0 hle
    unfold cacheSet
    by_cases hsz : 500 < (mapSet map key ⟨value, now⟩).length
    · have hfind := mapFind_filter_mapSet map key (⟨value, now⟩ : CEntry α)
        (fun p => decide (now - ttlMs ≤ p.2.insertedAt)) (by simp; omega)
      simp only [if_pos hsz, cacheGet, hfind]
      rw [if_neg (by omega)]
    · have hfind := mapFind_mapSet_self map key (⟨value, now⟩ : CEntry α)
      simp only [if_neg hsz, cacheGet, hfind]
      rw [if_neg (by omega)]
  · intro e he hex
    simp only [cacheGet, he]
    rw [if_pos hex]
  · intro h
    unfold cacheSet
    rw [if_neg (by omega)]
  · intro h
    unfold cacheSet
    rw [if_pos h]

set_option maxRecDepth 8000 in
theorem cache_ttl_behaviour_witness :
    (cacheGet (cacheSet ([] : List (Nat × CEntry Nat)) 1 7 10 0) 1 10 5).1 = some 7
    ∧ cacheGet [(1, (⟨7, 0⟩ : CEntry Nat))] 1 10 20 = (none, mapDelete [(1, ⟨7, 0⟩)] 1)
    ∧ cacheSet ([] : List (Nat × CEntry Nat)) 1 7 10 0 = mapSet [] 1 ⟨7, 0⟩
    ∧ cacheSet bigCache 600 7 10 100 =
        (mapSet bigCache 600 ⟨7, 100⟩).filter
          (fun p => decide (100 - 10 ≤ p.2.insertedAt)) := by
  refine ⟨(cache_ttl_behaviour [] 1 7 10 0 5).1 (by norm_num) (by norm_num),
          (cache_ttl_behaviour [(1, ⟨7, 0⟩)] 1 7 10 20 0).2.1 ⟨7, 0⟩ rfl (by norm_num),
          (cache_ttl_behaviour [] 1 7 10 0 0).2.2.1 (by decide),
          (cache_ttl_behaviour bigCache 600 7 10 100 0).2.2.2 (by decide)⟩

/-! ## Effective interval theorems (C3) -/

/-- C3: the effective scheduled interval is the requested cadence
(`cycle_seconds` when positive, else `cycle_minutes * 60` when
positive, else 3600) clamped up to the configured minimum floor; any
request below the floor becomes the floor, and the default floor is
300 seconds. -/
theorem effective_interval_clamped (envMin : Option Int) (job : Job) :
    getCycleIntervalSeconds envMin job =
      max (minCycleSeconds envMin) (requestedIntervalSeconds job)
    ∧ (requestedIntervalSeconds job < minCycleSeconds envMin →
        getCycleIntervalSeconds envMin job = minCycleSeconds envMin)
    ∧ minCycleSeconds none = 300 := by
  have h : getCycleIntervalSeconds envMin job =
      max (minCycleSeconds envMin) (requestedIntervalSeconds job) := by
    unfold getCycleIntervalSeconds requestedIntervalSeconds
    cases hs : job.cycle_seconds with
    | none =>
      cases hm : job.cycle_minutes with
      | none => rfl
      | some m => by_cases h0 : 0 < m <;> simp [h0, Option.orElse, Option.getD]
    | some s =>
      by_cases h0 : 0 < s
      · simp [h0, Option.orElse, Option.getD]
      · cases hm : job.cycle_minutes with
        | none => simp [h0, Option.orElse, Option.getD]
        | some m => by_cases h1 : 0 < m <;> simp [h0, h1, Option.orElse, Option.getD]
  refine ⟨h, fun hlt => ?_, by decide⟩
  rw [h]
  exact max_eq_left hlt.le

theorem effective_interval_clamped_witness :
    requestedIntervalSeconds job30 < minCycleSeconds none
    ∧ getCycleIntervalSeconds none job30 = minCycleSeconds none := by
  have h : requestedIntervalSeconds job30 < minCycleSeconds none := by decide
  exact ⟨h, (effective_interval_clamped none job30).2.1 h⟩

/-! ## Duration preference theorem (C8) -/

/-- C8: the duration recorded for a returned route is the upstream
traffic-adjusted duration whenever the mode is `driving` and the
upstream provides one, and the free-flow duration otherwise. -/
theorem duration_prefers_traffic (mode : String) (r : ApiRoute) :
    (buildRoute mode r).durationSeconds =
      if mode = "driving" then
        match r.legs.head?.bind ApiLeg.duration_in_traffic with
        | some t => some t
        | none => r.legs.head?.bind ApiLeg.duration
      else r.legs.head?.bind ApiLeg.duration := by
  unfold buildRoute
  by_cases hm : mode = "driving"
  · subst hm
    cases hdit : r.legs.head?.bind ApiLeg.duration_in_traffic <;> simp [hdit]
  · simp [hm, beq_eq_false_iff_ne.mpr hm]

/-! ## Zero-result fallback theorems (C4) -/

theorem resolveEndpoint_latlng (env : RoutingEnv)
    (henv : ∀ s r, env.geocode s = some r → isLatLng r = true)
    (s r : String) (h : resolveEndpoint env s = some r) : isLatLng r = true := by
  unfold resolveEndpoint at h
  split at h
  · injection h with h2
    subst h2
    assumption
  · exact henv s r h

theorem getRoutesFuel_succ (env : RoutingEnv) (fuel : Nat)
    (origin destination : String) (options : RouteOptions) :
    getRoutesFuel env (fuel + 1) origin destination options =
      match env.directions origin destination options with
      | [] =>
        if !(isLatLng origin) || !(isLatLng destination) then
          match resolveEndpoint env origin, resolveEndpoint env destination with
          | some o, some d => getRoutesFuel env fuel o d options
          | _, _ => some []
        else some []
      | r :: _ => some [buildRoute options.mode r] := rfl

/-- After the fallback both endpoints are `"lat,lng"` strings, so one
unit of fuel settles the call: zero results yield the empty list with
no further recursion. -/
theorem getRoutesFuel_latlng_step (env : RoutingEnv) (fuel : Nat) (o d : String)
    (options : RouteOptions) (ho : isLatLng o = true) (hd : isLatLng d = true) :
    getRoutesFuel env (fuel + 1) o d options =
      match env.directions o d options with
      | [] => some []
      | r :: _ => some [buildRoute options.mode r] := by
  rw [getRoutesFuel_succ]
  cases hdir : env.directions o d options with
  | nil => simp [ho, hd]
  | cons r rs => rfl

theorem getRoutesFuel_depth (env : RoutingEnv)
    (henv : ∀ s r, env.geocode s = some r → isLatLng r = true)
    (n m : Nat) (origin destination : String) (options : RouteOptions) :
    getRoutesFuel env (n + 1 + 1) origin destination options =
      getRoutesFuel env (m + 1 + 1) origin destination options := by
  rw [getRoutesFuel_succ env (n + 1), getRoutesFuel_succ env (m + 1)]
  cases hdir : env.directions origin destination options with
  | cons r rs => rfl
  | nil =>
    cases hcond : !(isLatLng origin) || !(isLatLng destination) with
    | false => simp
    | true =>
      simp only [if_true, if_pos]
      cases ho2 : resolveEndpoint env origin with
      | none => rfl
      | some o' =>
        cases hd2 : resolveEndpoint env destination with
        | none => rfl
        | some d' =>
          have ho' := resolveEndpoint_latlng env henv origin o' ho2
          have hd' := resolveEndpoint_latlng env henv destination d' hd2
          simp only []
          rw [getRoutesFuel_latlng_step env n o' d' options ho' hd',
              getRoutesFuel_latlng_step env m o' d' options ho' hd']

theorem getRoutesFuel_complete (env : RoutingEnv)
    (henv : ∀ s r, env.geocode s = some r → isLatLng r = true)
    (n : Nat) (origin destination : String) (options : RouteOptions) :
    getRoutesFuel env (n + 1 + 1) origin destination options ≠ none := by
  rw [getRoutesFuel_succ env (n + 1)]
  cases hdir : env.directions origin destination options with
  | cons r rs => simp
  | nil =>
    cases hcond : !(isLatLng origin) || !(isLatLng destination) with
    | false => simp
    | true =>
      simp only [if_true, if_pos]
      cases ho2 : resolveEndpoint env origin with
      | none => simp
      | some o' =>
        cases hd2 : resolveEndpoint env destination with
        | none => simp
        | some d' =>
          have ho' := resolveEndpoint_latlng env henv origin o' ho2
          have hd' := resolveEndpoint_latlng env henv destination d' hd2
          simp only []
          rw [getRoutesFuel_latlng_step env n o' d' options ho' hd']
          cases env.directions o' d' options <;> simp

/-- C4: when the geocoder only resolves to `"lat,lng"` strings, the
zero-result fallback of `getRoutes` recurses to depth at most one: any
two fuel bounds of at least 2 compute the same result, fuel 2 already
suffices (the computation never runs out), and a zero-result call whose
endpoints are both already coordinates returns the empty list with no
retry at all. -/
theorem getRoutes_fallback_depth_one (env : RoutingEnv)
    (henv : ∀ s r, env.geocode s = some r → isLatLng r = true)
    (origin destination : String) (options : RouteOptions)
    (fuel fuel' : Nat) (hf : 2 ≤ fuel) (hf' : 2 ≤ fuel') :
    getRoutesFuel env fuel origin destination options =
      getRoutesFuel env fuel' origin destination options
    ∧ getRoutesFuel env fuel origin destination options ≠ none
    ∧ (env.directions origin destination options = [] →
        isLatLng origin = true → isLatLng destination = true →
        getRoutesFuel env fuel origin destination options = some []) := by
  obtain ⟨n, rfl⟩ : ∃ n, fuel = n + 1 + 1 := ⟨fuel - 2, by omega⟩
  obtain ⟨m, rfl⟩ : ∃ m, fuel' = m + 1 + 1 := ⟨fuel' - 2, by omega⟩
  refine ⟨getRoutesFuel_depth env henv n m origin destination options,
          getRoutesFuel_complete env henv n origin destination options,
          fun hdir ho hd => ?_⟩
  rw [getRoutesFuel_succ env (n + 1), hdir]
  simp [ho, hd]

theorem getRoutes_fallback_depth_one_witness :
    getRoutesFuel zeroResultEnv 5 "Alpha St" "Beta Ave" drivingOptions =
      getRoutesFuel zeroResultEnv 2 "Alpha St" "Beta Ave" drivingOptions
    ∧ getRoutesFuel zeroResultEnv 5 "Alpha St" "Beta Ave" drivingOptions ≠ none
    ∧ getRoutesFuel zeroResultEnv 5 "1,2" "3,4" drivingOptions = some [] := by
  have henv : ∀ s r, zeroResultEnv.geocode s = some r → isLatLng r = true := by
    intro s r h
    injection h with h2
    subst h2
    decide
  obtain ⟨h1, h2, _⟩ := getRoutes_fallback_depth_one zeroResultEnv henv
    "Alpha St" "Beta Ave" drivingOptions 5 2 (by norm_num) (by norm_num)
  obtain ⟨_, _, h3⟩ := getRoutes_fallback_depth_one zeroResultEnv henv
    "1,2" "3,4" drivingOptions 5 2 (by norm_num) (by norm_num)
  exact ⟨h1, h2, h3 rfl (by decide) (by decide)⟩

/-! ## Scheduler helper lemmas -/

theorem cancelTimer_jobs (st : SchedState) (jobId : Nat) :
    (cancelTimer st jobId).jobs = st.jobs := by
  unfold cancelTimer
  cases st.registry.find? (fun p => p.1 == jobId) <;> rfl

theorem cancelTimer_snapshots (st : SchedState) (jobId : Nat) :
    (cancelTimer st jobId).snapshots = st.snapshots := by
  unfold cancelTimer
  cases st.registry.find? (fun p => p.1 == jobId) <;> rfl

theorem cancelTimer_no_entry (st : SchedState) (jobId : Nat) :
    (cancelTimer st jobId).registry.countP (fun p => p.1 == jobId) = 0 := by
  unfold cancelTimer
  cases hfind : st.registry.find? (fun p => p.1 == jobId) with
  | none =>
    rw [List.countP_eq_zero]
    intro p hp
    exact List.find?_eq_none.mp hfind p hp
  | some q =>
    rw [List.countP_eq_zero]
    intro p hp
    have := List.of_mem_filter hp
    simpa using this

theorem cancelTimer_registry_sublist (st : SchedState) (jobId : Nat) :
    (cancelTimer st jobId).registry.Sublist st.registry := by
  unfold cancelTimer
  cases st.registry.find? (fun p => p.1 == jobId) with
  | none => exact List.Sublist.refl _
  | some q => exact List.filter_sublist _

theorem updateJob_self (jobs : List Job) (jobId : Nat) (f : Job → Job)
    (h : ∀ x ∈ jobs, x.id = jobId → f x = x) :
    updateJob jobId f jobs = jobs := by
  unfold updateJob
  conv_rhs => rw [← List.map_id jobs]
  apply List.map_congr_left
  intro x hx
  by_cases hid : x.id = jobId
  · simp [hid, h x hx hid]
  · simp [hid]

theorem find_id_unique (jobs : List Job) (jobId : Nat) (j : Job)
    (hnd : (jobs.map Job.id).Nodup)
    (hfind : jobs.find? (fun x => x.id == jobId) = some j) :
    ∀ x ∈ jobs, x.id = jobId → x = j := by
  induction jobs with
  | nil => simp at hfind
  | cons y rest ih =>
    simp only [List.map_cons, List.nodup_cons] at hnd
    obtain ⟨hnotin, hnd'⟩ := hnd
    intro x hx hxid
    by_cases hy : y.id = jobId
    · have hj : j = y := by
        rw [List.find?_cons_of_pos _ (by simpa using hy)] at hfind
        exact (Option.some.injEq _ _).mp hfind.symm
      subst hj
      rcases List.mem_cons.mp hx with rfl | hx2
      · rfl
      · have hmem : j.id ∈ rest.map Job.id := by
          rw [hy, ← hxid]
          exact List.mem_map_of_mem Job.id hx2
        exact absurd hmem hnotin
    · rw [List.find?_cons_of_neg _ (by simpa using hy)] at hfind
      rcases List.mem_cons.mp hx with rfl | hx2
      · exact absurd hxid hy
      · exact ih hnd' hfind x hx2 hxid

theorem find_updateJob (jobs : List Job) (jobId : Nat) (f : Job → Job)
    (hid : ∀ j, (f j).id = j.id) :
    (updateJob jobId f jobs).find? (fun j => j.id == jobId) =
      (jobs.find? (fun j => j.id == jobId)).map f := by
  induction jobs with
  | nil => rfl
  | cons j rest ih =>
    by_cases h : j.id = jobId
    · rw [show updateJob jobId f (j :: rest) = f j :: updateJob jobId f rest by
          simp [updateJob, h]]
      rw [List.find?_cons_of_pos _ (by simp [hid, h]),
          List.find?_cons_of_pos _ (by simp [h])]
      simp
    · rw [show updateJob jobId f (j :: rest) = j :: updateJob jobId f rest by
          simp [updateJob, h]]
      rw [List.find?_cons_of_neg _ (by simp [h]),
          List.find?_cons_of_neg _ (by simp [h])]
      exact ih

/-- A job record whose `status` already has the written value is left
intact by the status write. -/
theorem status_write_id (j : Job) (s : String) (h : j.status = s) :
    { j with status := s } = j := by
  cases j
  simp_all

/-- Every path of one collection cycle: no-op, the expiry stop, or an
append of snapshots with at most the `updated_at` touch-up. -/
theorem runCollectionCycle_cases (now : Int) (fetch : Except Unit (List RouteOut))
    (failAt : Option Nat) (jobId : Nat) (st : SchedState) :
    runCollectionCycle now fetch failAt jobId st = st
    ∨ runCollectionCycle now fetch failAt jobId st = stopJob jobId st
    ∨ (∃ new, runCollectionCycle now fetch failAt jobId st =
        { st with snapshots := st.snapshots ++ new })
    ∨ (∃ new, runCollectionCycle now fetch failAt jobId st =
        { st with snapshots := st.snapshots ++ new
                  jobs := updateJob jobId (fun j => { j with updated_at := now }) st.jobs }) := by
  unfold runCollectionCycle
  cases hfind : findJob st jobId with
  | none => exact Or.inl rfl
  | some job =>
    dsimp only
    by_cases hrun : job.status ≠ "running"
    · rw [if_pos hrun]
      exact Or.inl rfl
    · rw [if_neg hrun]
      by_cases hexp : cycleEndTime now job < now
      · rw [if_pos hexp]
        exact Or.inr (Or.inl rfl)
      · rw [if_neg hexp]
        cases fetch with
        | error e => exact Or.inl rfl
        | ok routes =>
          dsimp only
          by_cases hemp : routes.isEmpty
          · rw [if_pos hemp]
            exact Or.inl rfl
          · rw [if_neg hemp]
            cases failAt with
            | none => exact Or.inr (Or.inr (Or.inr ⟨_, rfl⟩))
            | some k =>
              dsimp only
              by_cases h1 : k < routes.length
              · rw [if_pos h1]
                exact Or.inr (Or.inr (Or.inl ⟨_, rfl⟩))
              · rw [if_neg h1]
                by_cases h2 : (k == routes.length) = true
                · rw [if_pos h2]
                  exact Or.inr (Or.inr (Or.inl ⟨_, rfl⟩))
                · rw [if_neg h2]
                  exact Or.inr (Or.inr (Or.inr ⟨_, rfl⟩))

/-- A cycle on a running, unexpired job only appends snapshots and
possibly touches `updated_at`. -/
theorem runCollectionCycle_running (now : Int) (fetch : Except Unit (List RouteOut))
    (failAt : Option Nat) (jobId : Nat) (st : SchedState) (job : Job)
    (hfind : findJob st jobId = some job)
    (hrun : job.status = "running")
    (hnexp : ¬ cycleEndTime now job < now) :
    ∃ (new : List Snapshot),
      runCollectionCycle now fetch failAt jobId st =
        { st with snapshots := st.snapshots ++ new }
      ∨ runCollectionCycle now fetch failAt jobId st =
        { st with
          snapshots := st.snapshots ++ new
          jobs := updateJob jobId (fun j => { j with updated_at := now }) st.jobs } := by
  unfold runCollectionCycle
  rw [hfind]
  dsimp only
  rw [if_neg (by simp [hrun]), if_neg hnexp]
  cases fetch with
  | error e => exact ⟨[], Or.inl (by simp)⟩
  | ok routes =>
    dsimp only
    by_cases hemp : routes.isEmpty
    · rw [if_pos hemp]
      exact ⟨[], Or.inl (by simp)⟩
    · rw [if_neg hemp]
      cases failAt with
      | none => exact ⟨snapshotsFor jobId now routes, Or.inr rfl⟩
      | some k =>
        dsimp only
        by_cases h1 : k < routes.length
        · rw [if_pos h1]
          exact ⟨(snapshotsFor jobId now routes).take k, Or.inl rfl⟩
        · rw [if_neg h1]
          by_cases h2 : (k == routes.length) = true
          · rw [if_pos h2]
            exact ⟨snapshotsFor jobId now routes, Or.inl rfl⟩
          · rw [if_neg h2]
            exact ⟨snapshotsFor jobId now routes, Or.inr rfl⟩

/-! ## Expiry base (C1) -/

/-- C1 failing input: a running job with `end_time` unset, created at
time 0 with `duration_days = 7`, cycled at `now` = 10 days = 864000 s.
The code computes the implicit expiry from `now` instead of
`created_at`, so although `created_at + duration_days` is long past the
job is not stopped: the cycle leaves it `running` and writes a
snapshot, where the claim requires a transition to `completed` with
zero new snapshots. -/
theorem expiry_ignores_created_at :
    (runCollectionCycle 864000 (Except.ok [oneRoute]) none 1 staleState).jobs.map Job.status
        = ["running"]
    ∧ (runCollectionCycle 864000 (Except.ok [oneRoute]) none 1 staleState).snapshots.length = 1
    ∧ addDays staleJob.created_at (durationDaysOf staleJob) < 864000 := by
  decide

/-! ## Lifecycle transitions (C5) -/

/-- C5 counterexample: `pause` invoked on a job that is not running is
not always a no-op — on a completed job it overwrites the persisted
status with `'paused'`. -/
theorem pause_not_noop_on_completed :
    completedJob.status = "completed"
    ∧ (pauseJob 2 completedState).jobs.map Job.status = ["paused"] := by
  decide

/-- C5 (amended): `start`/`resume` on an id absent from the store fail
with JobNotFound; `start` on an already-running job, `resume` on a
non-paused job, `pause` on an already-paused job and `stop` on an
already-completed job leave the persisted jobs unchanged and raise no
error (job ids are unique, as the primary key guarantees). -/
theorem lifecycle_transitions (envMin : Option Int) (now : Int)
    (fetch : Except Unit (List RouteOut)) (failAt : Option Nat)
    (jobId : Nat) (st : SchedState) (hids : (st.jobs.map Job.id).Nodup) :
    (findJob st jobId = none →
      startJob envMin now fetch failAt jobId st = .error ()
      ∧ resumeJob envMin now fetch failAt jobId st = .error ())
    ∧ (∀ j, findJob st jobId = some j → j.status = "running" →
        startJob envMin now fetch failAt jobId st = .ok st)
    ∧ (∀ j, findJob st jobId = some j → j.status ≠ "paused" →
        resumeJob envMin now fetch failAt jobId st = .ok st)
    ∧ (∀ j, findJob st jobId = some j → j.status = "paused" →
        (pauseJob jobId st).jobs = st.jobs)
    ∧ (∀ j, findJob st jobId = some j → j.status = "completed" →
        (stopJob jobId st).jobs = st.jobs) := by
  refine ⟨?_, ?_, ?_, ?_, ?_⟩
  · intro hnone
    constructor
    · unfold startJob
      rw [hnone]
    · unfold resumeJob
      rw [hnone]
  · intro j hj hrun
    unfold startJob
    rw [hj]
    simp [hrun]
  · intro j hj hnp
    unfold resumeJob
    rw [hj]
    simp [hnp]
  · intro j hj hp
    unfold pauseJob
    dsimp only
    rw [cancelTimer_jobs]
    apply updateJob_self
    intro x hx hxid
    have hxj := find_id_unique st.jobs jobId j hids hj x hx hxid
    subst hxj
    exact status_write_id x "paused" hp
  · intro j hj hc
    unfold stopJob
    dsimp only
    rw [cancelTimer_jobs]
    apply updateJob_self
    intro x hx hxid
    have hxj := find_id_unique st.jobs jobId j hids hj x hx hxid
    subst hxj
    exact status_write_id x "completed" hc

theorem lifecycle_transitions_witness :
    (startJob none 0 (Except.ok []) none 99 lifecycleState = .error ()
      ∧ resumeJob none 0 (Except.ok []) none 99 lifecycleState = .error ())
    ∧ startJob none 0 (Except.ok []) none 3 lifecycleState = .ok lifecycleState
    ∧ resumeJob none 0 (Except.ok []) none 3 lifecycleState = .ok lifecycleState
    ∧ (pauseJob 1 lifecycleState).jobs = lifecycleState.jobs
    ∧ (stopJob 2 lifecycleState).jobs = lifecycleState.jobs := by
  have hids : (lifecycleState.jobs.map Job.id).Nodup := by decide
  exact ⟨(lifecycle_transitions none 0 (Except.ok []) none 99 lifecycleState hids).1
            (by decide),
         (lifecycle_transitions none 0 (Except.ok []) none 3 lifecycleState hids).2.1
            runningJob (by decide) (by decide),
         (lifecycle_transitions none 0 (Except.ok []) none 3 lifecycleState hids).2.2.1
            runningJob (by decide) (by decide),
         (lifecycle_transitions none 0 (Except.ok []) none 1 lifecycleState hids).2.2.2.1
            pausedJob (by decide) (by decide),
         (lifecycle_transitions none 0 (Except.ok []) none 2 lifecycleState hids).2.2.2.2
            completedJob (by decide) (by decide)⟩

/-! ## Cycle frame and error containment (C7) -/

/-- C7: one collection cycle only appends snapshots and touches at most
the job's `updated_at` (other jobs are untouched); any error from the
routing call or from the persistence statements is caught and
swallowed, so a cycle on a running, unexpired job leaves every
persisted status — in particular the job's own `running` — unchanged,
no matter how the fetch or the inserts fail. -/
theorem cycle_frame_and_error_containment (now : Int)
    (fetch : Except Unit (List RouteOut)) (failAt : Option Nat)
    (jobId : Nat) (st : SchedState) :
    (∃ new, (runCollectionCycle now fetch failAt jobId st).snapshots = st.snapshots ++ new)
    ∧ (∃ g : Job → Job,
        (runCollectionCycle now fetch failAt jobId st).jobs = st.jobs.map g
        ∧ ∀ j, j.id ≠ jobId → g j = j)
    ∧ (∀ job, findJob st jobId = some job → job.status = "running" →
        ¬ cycleEndTime now job < now →
        (runCollectionCycle now fetch failAt jobId st).jobs.map Job.status
            = st.jobs.map Job.status
        ∧ (findJob (runCollectionCycle now fetch failAt jobId st) jobId).map Job.status
            = some "running") := by
  refine ⟨?_, ?_, ?_⟩
  · rcases runCollectionCycle_cases now fetch failAt jobId st with h | h | ⟨new, h⟩ | ⟨new, h⟩
    · exact ⟨[], by simp [h]⟩
    · refine ⟨[], ?_⟩
      rw [h]
      unfold stopJob
      dsimp only
      rw [cancelTimer_snapshots]
      simp
    · exact ⟨new, by rw [h]⟩
    · exact ⟨new, by rw [h]⟩
  · rcases runCollectionCycle_cases now fetch failAt jobId st with h | h | ⟨new, h⟩ | ⟨new, h⟩
    · exact ⟨fun j => j, by simp [h], fun _ _ => rfl⟩
    · refine ⟨fun j => if j.id == jobId then { j with status := "completed" } else j, ?_, ?_⟩
      · rw [h]
        unfold stopJob
        dsimp only
        rw [cancelTimer_jobs]
        rfl
      · intro j hj
        simp [hj]
    · exact ⟨fun j => j, by simp [h], fun _ _ => rfl⟩
    · refine ⟨fun j => if j.id == jobId then { j with updated_at := now } else j, ?_, ?_⟩
      · rw [h]
        rfl
      · intro j hj
        simp [hj]
  · intro job hfind hrun hnexp
    obtain ⟨new, hcase⟩ :=
      runCollectionCycle_running now fetch failAt jobId st job hfind hrun hnexp
    rcases hcase with heq | heq
    · rw [heq]
      refine ⟨rfl, ?_⟩
      show (st.jobs.find? (fun j => j.id == jobId)).map Job.status = some "running"
      unfold findJob at hfind
      rw [hfind]
      simp [hrun]
    · rw [heq]
      constructor
      · show (updateJob jobId (fun j => { j with updated_at := now }) st.jobs).map Job.status
            = st.jobs.map Job.status
        unfold updateJob
        rw [List.map_map]
        apply List.map_congr_left
        intro x _
        by_cases hx : x.id = jobId <;> simp [hx]
      · show ((updateJob jobId (fun j => { j with updated_at := now }) st.jobs).find?
            (fun j => j.id == jobId)).map Job.status = some "running"
        rw [find_updateJob st.jobs jobId (fun j => { j with updated_at := now }) (fun j => rfl)]
        unfold findJob at hfind
        rw [hfind]
        simp [hrun]

theorem cycle_frame_and_error_containment_witness :
    (∃ new, (runCollectionCycle 10 (Except.error ()) none 3 runningState).snapshots
        = runningState.snapshots ++ new)
    ∧ (runCollectionCycle 10 (Except.error ()) none 3 runningState).jobs.map Job.status
        = runningState.jobs.map Job.status := by
  obtain ⟨h1, _, h3⟩ :=
    cycle_frame_and_error_containment 10 (Except.error ()) none 3 runningState
  exact ⟨h1, (h3 runningJob (by decide) (by decide) (by decide)).1⟩

/-! ## Start arms exactly one timer (C6) -/

/-- C6 counterexample: `start` on an existing, non-running job whose
`end_time` is already past returns with **zero** timers registered for
the id and persisted status `completed` — the synchronous immediate
cycle hits the expiry path and stops the job — contradicting "exactly
one live timer" and "status 'running' has been persisted". -/
theorem start_expired_job_no_timer :
    startJob none 10 (Except.ok []) none 4 expiredState =
      Except.ok { jobs := [{ expiredPendingJob with status := "completed" }],
                  snapshots := [], registry := [], live := [], nextHandle := 1 }
    ∧ countTimers { jobs := [{ expiredPendingJob with status := "completed" }],
                    snapshots := [], registry := [], live := [], nextHandle := 1 } 4 = 0 :=
  ⟨rfl, rfl⟩

theorem armJob_jobs (jobId : Nat) (st : SchedState) :
    (armJob jobId st).jobs =
      updateJob jobId (fun j => { j with status := "running" }) st.jobs := by
  unfold armJob
  dsimp only
  rw [cancelTimer_jobs]

/-- C6 (amended): `start` on an existing non-running job whose expiry
has not yet passed returns `ok`; afterwards the registry holds exactly
one timer for the id (any stale entry was dropped first), the persisted
status is `running`, a second `start` is a no-op returning the state
unchanged, and key-uniqueness of the registry is preserved. -/
theorem start_arms_single_timer (envMin : Option Int) (now : Int)
    (fetch : Except Unit (List RouteOut)) (failAt : Option Nat)
    (jobId : Nat) (st : SchedState) (job : Job)
    (hfind : findJob st jobId = some job)
    (hnotrun : job.status ≠ "running")
    (hnexp : ¬ cycleEndTime now job < now) :
    ∃ st', startJob envMin now fetch failAt jobId st = .ok st'
      ∧ countTimers st' jobId = 1
      ∧ (findJob st' jobId).map Job.status = some "running"
      ∧ (∀ envMin2 now2 fetch2 failAt2,
          startJob envMin2 now2 fetch2 failAt2 jobId st' = .ok st')
      ∧ ((st.registry.map Prod.fst).Nodup → (st'.registry.map Prod.fst).Nodup) := by
  have hfind3 : findJob (armJob jobId st) jobId = some { job with status := "running" } := by
    unfold findJob
    rw [armJob_jobs,
        find_updateJob st.jobs jobId (fun j => { j with status := "running" }) (fun j => rfl)]
    unfold findJob at hfind
    rw [hfind]
    rfl
  obtain ⟨new, hcase⟩ := runCollectionCycle_running now fetch failAt jobId (armJob jobId st)
    { job with status := "running" } hfind3 rfl hnexp
  have hreg : (runCollectionCycle now fetch failAt jobId (armJob jobId st)).registry =
      (jobId, (cancelTimer st jobId).nextHandle) :: (cancelTimer st jobId).registry := by
    rcases hcase with heq | heq <;> rw [heq] <;> rfl
  have hfound' : (findJob (runCollectionCycle now fetch failAt jobId (armJob jobId st)) jobId).map
      Job.status = some "running" := by
    rcases hcase with heq | heq
    · rw [heq]
      show ((armJob jobId st).jobs.find? (fun j => j.id == jobId)).map Job.status = _
      unfold findJob at hfind3
      rw [hfind3]
      rfl
    · rw [heq]
      show (((updateJob jobId (fun j => { j with updated_at := now }) (armJob jobId st).jobs)).find?
          (fun j => j.id == jobId)).map Job.status = _
      rw [find_updateJob (armJob jobId st).jobs jobId
            (fun j => { j with updated_at := now }) (fun j => rfl)]
      unfold findJob at hfind3
      rw [hfind3]
      rfl
  refine ⟨runCollectionCycle now fetch failAt jobId (armJob jobId st), ?_, ?_, hfound', ?_, ?_⟩
  · unfold startJob
    rw [hfind]
    dsimp only
    rw [if_neg hnotrun]
  · unfold countTimers
    rw [hreg, List.countP_cons_of_pos _ _ (by simp), cancelTimer_no_entry]
  · intro envMin2 now2 fetch2 failAt2
    cases hj' : findJob (runCollectionCycle now fetch failAt jobId (armJob jobId st)) jobId with
    | none => rw [hj'] at hfound'; simp at hfound'
    | some j' =>
      rw [hj'] at hfound'
      unfold startJob
      rw [hj']
      dsimp only
      rw [if_pos (by simpa using hfound')]
  · intro hnd
    rw [hreg]
    simp only [List.map_cons, List.nodup_cons]
    constructor
    · intro hmem
      have h0 := cancelTimer_no_entry st jobId
      rw [List.countP_eq_zero] at h0
      obtain ⟨p, hp, hp2⟩ := List.mem_map.mp hmem
      exact h0 p hp (by simp [hp2])
    · exact List.Nodup.sublist ((cancelTimer_registry_sublist st jobId).map Prod.fst) hnd

theorem start_arms_single_timer_witness :
    ∃ st', startJob none 10 (Except.ok [oneRoute]) none 1 lifecycleState = .ok st'
      ∧ countTimers st' 1 = 1
      ∧ (findJob st' 1).map Job.status = some "running"
      ∧ (∀ envMin2 now2 fetch2 failAt2,
          startJob envMin2 now2 fetch2 failAt2 1 st' = .ok st')
      ∧ ((lifecycleState.registry.map Prod.fst).Nodup → (st'.registry.map Prod.fst).Nodup) :=
  start_arms_single_timer none 10 (Except.ok [oneRoute]) none 1 lifecycleState pausedJob
    (by decide) (by decide) (by decide)

end RouteWatch
